import Mathlib

/-!
Verification development for the JPEGTurbo-Unity streaming server reference
scripts (JPEGTurboTCPServer.py and StreamClockJPEG.py).  The definitions below
are a shallow embedding of the server code: the per-client framed send routine
`_sendJPEGToClient` / `sendMessageToClient`, the broadcast-with-eviction routine
`sendJPEGToAllClients`, the paced streaming loop `RunStreamingLoop` /
`JPEGStreamingLoop`, the constructor `JPEGStreamerServer.__init__`, the circular
frame index of `_sendNextFrameEncoded`, and the client registry maintained by
`_wait_for_clients_loop`.  Byte buffers are modelled as `List Nat`, machine
integers as `Nat` with explicit bounds where Python raises on overflow, and
socket behaviour as a deterministic mock.
-/

/-- Outcome of one call to `socket.send` issued by the payload loop of
`_sendJPEGToClient`: the socket either accepted `n` bytes of the offered slice
(`n = 0` signals a broken connection in the source), or the call raised an
OS-level exception (caught by the bare `except` in the source). -/
inductive SendOutcome where
  | sent (n : Nat)
  | err
  deriving DecidableEq

/-- Deterministic mock of one client TCP socket, exposing exactly the interface
`_sendJPEGToClient` uses.  `headerOk` tells whether `socket.sendall` of the
4-byte length header succeeds (false models the call raising, which the source
catches and turns into a return of 0).  `send t` is the outcome of the
`socket.send(message[totalsent:])` call issued when `totalsent = t`; for a
deterministic mock peer the outcome is a function of the write offset. -/
structure MockSocket where
  headerOk : Bool
  send : Nat → SendOutcome

/-- The payload while-loop of `_sendJPEGToClient` (source lines 211-217):
while `totalsent < len(message)`, call `socket.send(message[totalsent:])`;
a returned 0 makes the function return `totalsent`; an exception propagates to
the enclosing handlers, which return 0; otherwise `totalsent` advances by the
number of bytes accepted; when the loop exits the function returns
`len(message)`.  `fuel` is a structural-recursion bound; every call site passes
`fuel = msgLen`, which suffices because each iteration advances `totalsent` by
at least one. -/
def sendLoopAux (sock : MockSocket) (msgLen : Nat) : Nat → Nat → Nat
  | 0, totalsent => if totalsent < msgLen then 0 else msgLen
  | fuel + 1, totalsent =>
    if totalsent < msgLen then
      match sock.send totalsent with
      | SendOutcome.err => 0
      | SendOutcome.sent 0 => totalsent
      | SendOutcome.sent (n + 1) => sendLoopAux sock msgLen fuel (totalsent + n + 1)
    else msgLen

/-- Shallow embedding of `_sendJPEGToClient(socket, message)` (and of the
identical `sendMessageToClient` in StreamClockJPEG.py).  The source first runs
`len(message).to_bytes(4, "little")`, which raises `OverflowError` when the
length does not fit in four bytes; every exception anywhere in the body is
caught and turned into a return of 0.  Then `socket.sendall` writes the 4-byte
header, then the payload loop runs.  The function always returns a byte count
and never propagates an exception, which the total Lean function models. -/
def sendJPEGToClient (sock : MockSocket) (message : List Nat) : Nat :=
  if message.length < 4294967296 then
    if sock.headerOk then sendLoopAux sock message.length message.length 0
    else 0
  else 0

/-- The sequence of payload bytes actually accepted by the peer during the
payload loop of `_sendJPEGToClient`: each successful `socket.send` at offset
`totalsent` transfers the first accepted-count bytes of `message[totalsent:]`.
Same fuel discipline as `sendLoopAux`. -/
def sendLoopBytesAux (sock : MockSocket) (message : List Nat) : Nat → Nat → List Nat
  | 0, _ => []
  | fuel + 1, totalsent =>
    if totalsent < message.length then
      match sock.send totalsent with
      | SendOutcome.err => []
      | SendOutcome.sent 0 => []
      | SendOutcome.sent (n + 1) =>
          (message.drop totalsent).take (n + 1) ++
            sendLoopBytesAux sock message fuel (totalsent + n + 1)
    else []

/-- Little-endian 4-byte encoding of a natural number, the embedding of
`n.to_bytes(4, "little")` for `n < 2^32`. -/
def natToLE4 (n : Nat) : List Nat :=
  [n % 256, n / 256 % 256, n / 65536 % 256, n / 16777216 % 256]

/-- Value of a 4-byte little-endian length header, as read back by a receiver
of the wire protocol. -/
def leDecode4 (bs : List Nat) : Nat :=
  match bs with
  | [b0, b1, b2, b3] => b0 + 256 * b1 + 65536 * b2 + 16777216 * b3
  | _ => 0

/-- All bytes written to the wire by one call of `_sendJPEGToClient`: the
4-byte little-endian length header (written by `socket.sendall`, all or
nothing), followed by the payload bytes the peer accepted.  When building the
header raises (length out of 4-byte range) or the header write raises, no
payload byte is written. -/
def wireBytes (sock : MockSocket) (message : List Nat) : List Nat :=
  if message.length < 4294967296 then
    if sock.headerOk then
      natToLE4 message.length ++ sendLoopBytesAux sock message message.length 0
    else []
  else []

/-- Modelled from the spec: the receiver described in section 8 of the spec
reads a 4-byte little-endian length header from the stream and then exactly
that many payload bytes, returning the payload and the remaining stream. -/
def decodeFrame (stream : List Nat) : Option (List Nat × List Nat) :=
  if stream.length < 4 then none
  else if (stream.drop 4).length < leDecode4 (stream.take 4) then none
  else some ((stream.drop 4).take (leDecode4 (stream.take 4)),
    (stream.drop 4).drop (leDecode4 (stream.take 4)))

/-- Remote address of a connected peer, an (ip, port) pair abstracted to
naturals. -/
abbrev Addr := Nat × Nat

/-- One entry of the client registry `self._clients`: the source stores the
tuple `(sockt, addr)`; socket objects are identified by an abstract handle. -/
abbrev ClientEntry := Nat × Addr

/-- Assignment of mock socket behaviour to each socket handle. -/
abbrev SocketEnv := Nat → MockSocket

/-- Result of the per-client send performed by `sendJPEGToAllClients` for the
registry entry `c`. -/
def clientSendResult (env : SocketEnv) (c : ClientEntry) (jpg : List Nat) : Nat :=
  sendJPEGToClient (env c.1) jpg

/-- The `removalSet` built by the first loop of `sendJPEGToAllClients` (source
lines 181-185): every client whose per-client send returned fewer bytes than
`len(jpg)` is marked for removal. -/
def removalSet (env : SocketEnv) (clients : List ClientEntry) (jpg : List Nat) :
    List ClientEntry :=
  clients.filter (fun c => decide (clientSendResult env c jpg < jpg.length))

/-- The registry left by the second loop of `sendJPEGToAllClients` (source
lines 187-189), which removes every marked client from the set
`self._clients`. -/
def registryAfterBroadcast (env : SocketEnv) (clients : List ClientEntry)
    (jpg : List Nat) : List ClientEntry :=
  clients.filter (fun c => decide (c ∉ removalSet env clients jpg))

/-- Vocabulary of observable actions the eviction phase of
`sendJPEGToAllClients` can perform on a marked client.  `closeSocket` is part
of the vocabulary so that the presence or absence of a socket closure is
expressible; the source body contains only a registry removal and a log
statement. -/
inductive EvictAction where
  | removeEntry (c : ClientEntry)
  | logDisconnect (a : Addr)
  | closeSocket (handle : Nat)
  deriving DecidableEq

/-- Action trace of the eviction loop of `sendJPEGToAllClients` (source lines
187-189): for each client of the removal set the source executes
`self._clients.remove(client)` and logs a disconnect with the peer address,
and nothing else. -/
def evictPhaseActions : List ClientEntry → List EvictAction
  | [] => []
  | c :: rest =>
      EvictAction.removeEntry c :: EvictAction.logDisconnect c.2 :: evictPhaseActions rest

/-- Handles of the sockets closed by a trace of eviction actions. -/
def closedHandles : List EvictAction → List Nat
  | [] => []
  | EvictAction.closeSocket h :: rest => h :: closedHandles rest
  | _ :: rest => closedHandles rest

/-- Full effect of `sendJPEGToAllClients`: the registry after eviction and the
actions performed on the evicted clients. -/
def sendJPEGToAllClients (env : SocketEnv) (clients : List ClientEntry)
    (jpg : List Nat) : List ClientEntry × List EvictAction :=
  (registryAfterBroadcast env clients jpg, evictPhaseActions (removalSet env clients jpg))

/-- How one iteration of `RunStreamingLoop` finishes: normally, with a
`KeyboardInterrupt`, or with any other exception raised while producing,
encoding or broadcasting the frame. -/
inductive IterOutcome where
  | ok
  | interrupted
  | exn
  deriving DecidableEq

/-- State of `RunStreamingLoop` (source lines 228-247).  `selfLoopForever` is
the attribute `self.loopForever` read by the while condition;
`localLoopForever` is the function-local variable `loopForever` that the two
exception handlers assign (the local is never read by the function);
`framesAttempted` counts iterations that entered the loop body and called
`sendNextFrame`. -/
structure LoopState where
  selfLoopForever : Bool
  localLoopForever : Bool
  framesAttempted : Nat
  deriving DecidableEq

/-- One pass of the while loop of `RunStreamingLoop`: if `self.loopForever`
holds, the body runs (attempting a frame); on `KeyboardInterrupt` or any other
exception the handler executes `loopForever = False`, an assignment to the
function-local name, leaving `self.loopForever` untouched. -/
def runStreamingStep (outcome : IterOutcome) (s : LoopState) : LoopState :=
  if s.selfLoopForever then
    match outcome with
    | IterOutcome.ok => { s with framesAttempted := s.framesAttempted + 1 }
    | IterOutcome.interrupted =>
        { s with framesAttempted := s.framesAttempted + 1, localLoopForever := false }
    | IterOutcome.exn =>
        { s with framesAttempted := s.framesAttempted + 1, localLoopForever := false }
  else s

/-- State at entry of `RunStreamingLoop`: the source sets
`self.loopForever = True`; the local `loopForever` is unbound until a handler
assigns it and is never read, so its initial model value is irrelevant. -/
def initialLoopState : LoopState := ⟨true, true, 0⟩

/-- State of `RunStreamingLoop` after `k` passes of the while loop, where
`outcomes i` says how iteration `i` finished. -/
def runLoopN (outcomes : Nat → IterOutcome) : Nat → LoopState
  | 0 => initialLoopState
  | k + 1 => runStreamingStep (outcomes k) (runLoopN outcomes k)

/-- Exceptions raised by `JPEGStreamerServer.__init__` in
JPEGTurboTCPServer.py.  `formatTypeMismatch` is the `TypeError` raised on the
pre-encode path by line 112, which applies the two-specifier format
`Pre-encoded %d frames in %f seconds` to the single integer `len(self._frames)`.
`unboundNameMaxFPSTest` is the `NameError` raised by line 122, `if
runMAXFPSTest:`, a name bound nowhere in the module. -/
inductive InitFailure where
  | formatTypeMismatch
  | unboundNameMaxFPSTest
  deriving DecidableEq

/-- Configuration a successfully constructed server would hold. -/
structure ServerConfig where
  fps : Nat
  quality : Nat
  preEncoded : Bool
  maxClients : Nat
  frameCount : Nat
  deriving DecidableEq

/-- Shallow embedding of `JPEGStreamerServer.__init__` (source lines 76-124),
with bind/listen on the server socket assumed to succeed (external OS calls).
When a frame array is provided and `preencodeFrames` holds, the constructor
pre-encodes the frames and then raises `TypeError` at the summary log of line
112; on every other path it reaches line 122 and raises `NameError` on the
unbound module-level name `runMAXFPSTest`.  No path returns normally. -/
def initServer (frames : Option (List (List Nat))) (fps quality : Nat)
    (preencodeFrames : Bool) (maxClients : Nat) : Except InitFailure ServerConfig :=
  match frames with
  | some _fs =>
      if preencodeFrames then Except.error InitFailure.formatTypeMismatch
      else Except.error InitFailure.unboundNameMaxFPSTest
  | none => Except.error InitFailure.unboundNameMaxFPSTest

/-- Value of `self._currentFrame` after `k` calls of `_sendNextFrameEncoded`
on a pre-encoded array of `n` frames: the index starts at 0 and line 201
advances it by `(self._currentFrame + 1) % self._frameCount` after each
send. -/
def idxAfter (n : Nat) : Nat → Nat
  | 0 => 0
  | k + 1 => (idxAfter n k + 1) % n

/-- Payload sent by the `k`-th call (0-indexed) of `_sendNextFrameEncoded`
(source line 200): the entry `self._encodedFrames[self._currentFrame]`;
`none` models an `IndexError`. -/
def sentPayload (enc : List (List Nat)) (k : Nat) : Option (List Nat) :=
  enc[idxAfter enc.length k]?

/-- Observable effect of the pacing tail of one loop iteration
(`RunStreamingLoop` lines 236-240 and `JPEGStreamingLoop` lines 169-173):
how long the iteration sleeps, whether the overrun message is logged, and
whether frame delivery was attempted this iteration. -/
structure IterEffect where
  sleepTime : Rat
  overrunLogged : Bool
  deliveryAttempted : Bool

/-- One iteration of the paced streaming loop with target rate `fps` and
measured elapsed time `elapsed`, over exact rational arithmetic: the source
computes `maxTimePerFrame = 1.0 / fps - 0.005`, calls `sendNextFrame`
unconditionally, then sleeps the remaining budget when positive and otherwise
logs the overrun message. -/
def loopIteration (fps elapsed : Rat) : IterEffect :=
  if (1 / fps - 5 / 1000) - elapsed > 0 then
    ⟨(1 / fps - 5 / 1000) - elapsed, false, true⟩
  else
    ⟨0, true, true⟩

/-- Registry states reachable by interleaving the two mutators of
`self._clients`: the acceptor step of `_wait_for_clients_loop` (source lines
146-151), which adds `(sockt, addr)` for a freshly accepted socket — a new
socket object, hence with a handle distinct from every handle already
registered — and the broadcaster step, which removes an entry. -/
inductive ReachableRegistry : List ClientEntry → Prop where
  | empty : ReachableRegistry []
  | accept (c : ClientEntry) (reg : List ClientEntry) :
      ReachableRegistry reg → (∀ d ∈ reg, d.1 ≠ c.1) → ReachableRegistry (c :: reg)
  | evict (c : ClientEntry) (reg : List ClientEntry) :
      ReachableRegistry reg → ReachableRegistry (reg.erase c)

/-- Mock socket used by the C1 witness: the header write succeeds and every
payload write accepts the whole offered slice. -/
def c1Sock : MockSocket := ⟨true, fun t => SendOutcome.sent (3 - t)⟩

/-- Socket environment for the C2 witness: handle 0 is a healthy peer, every
other handle fails at the header write. -/
def c2Env : SocketEnv := fun h =>
  if h = 0 then ⟨true, fun t => SendOutcome.sent (1 - t)⟩
  else ⟨false, fun _ => SendOutcome.err⟩

/-- Registry for the C2 witness: one healthy client and one dead client. -/
def c2Clients : List ClientEntry := [(0, (1, 1)), (1, (2, 2))]

/-- The payload loop never reports more bytes than the payload length. -/
theorem sendLoopAux_le (sock : MockSocket) (msgLen : Nat) :
    ∀ fuel totalsent, sendLoopAux sock msgLen fuel totalsent ≤ msgLen := by
  intro fuel
  induction fuel with
  | zero =>
      intro t
      simp only [sendLoopAux]
      split <;> omega
  | succ f ih =>
      intro t
      simp only [sendLoopAux]
      split
      · split
        · omega
        · omega
        · exact ih _
      · exact Nat.le_refl _

/-- The per-client send never reports more bytes than the payload length. -/
theorem sendJPEGToClient_le (sock : MockSocket) (B : List Nat) :
    sendJPEGToClient sock B ≤ B.length := by
  unfold sendJPEGToClient
  split
  · split
    · exact sendLoopAux_le sock B.length B.length 0
    · exact Nat.zero_le _
  · exact Nat.zero_le _

/-- When the payload loop reports full success, the peer accepted exactly the
remaining payload bytes. -/
theorem sendLoopBytes_of_success (sock : MockSocket) (msg : List Nat) :
    ∀ fuel totalsent, msg.length - totalsent ≤ fuel →
      sendLoopAux sock msg.length fuel totalsent = msg.length →
      sendLoopBytesAux sock msg fuel totalsent = msg.drop totalsent := by
  intro fuel
  induction fuel with
  | zero =>
      intro t hf _
      have ht : msg.length ≤ t := by omega
      simp only [sendLoopBytesAux]
      exact (List.drop_eq_nil_of_le ht).symm
  | succ f ih =>
      intro t hf hs
      by_cases ht : t < msg.length
      · cases hsend : sock.send t with
        | err =>
            simp only [sendLoopAux, if_pos ht, hsend] at hs
            omega
        | sent n =>
            cases n with
            | zero =>
                simp only [sendLoopAux, if_pos ht, hsend] at hs
                omega
            | succ m =>
                simp only [sendLoopAux, if_pos ht, hsend] at hs
                simp only [sendLoopBytesAux, if_pos ht, hsend]
                rw [ih (t + m + 1) (by omega) hs]
                rw [show t + m + 1 = t + (m + 1) from Nat.add_assoc t m 1]
                exact List.drop_take_append_drop msg t (m + 1)
      · simp only [sendLoopBytesAux, if_neg ht]
        exact (List.drop_eq_nil_of_le (by omega)).symm

/-- Conversely, if the peer accepted all remaining payload bytes then the
payload loop reports full success. -/
theorem success_of_sendLoopBytes (sock : MockSocket) (msg : List Nat) :
    ∀ fuel totalsent, msg.length - totalsent ≤ fuel →
      sendLoopBytesAux sock msg fuel totalsent = msg.drop totalsent →
      sendLoopAux sock msg.length fuel totalsent = msg.length := by
  intro fuel
  induction fuel with
  | zero =>
      intro t hf _
      simp only [sendLoopAux]
      rw [if_neg (by omega)]
  | succ f ih =>
      intro t hf hb
      by_cases ht : t < msg.length
      · cases hsend : sock.send t with
        | err =>
            simp only [sendLoopBytesAux, if_pos ht, hsend] at hb
            have hlen := congrArg List.length hb
            simp only [List.length_nil, List.length_drop] at hlen
            omega
        | sent n =>
            cases n with
            | zero =>
                simp only [sendLoopBytesAux, if_pos ht, hsend] at hb
                have hlen := congrArg List.length hb
                simp only [List.length_nil, List.length_drop] at hlen
                omega
            | succ m =>
                simp only [sendLoopBytesAux, if_pos ht, hsend] at hb
                have hsplit := List.drop_take_append_drop msg t (m + 1)
                rw [show t + (m + 1) = t + m + 1 from (Nat.add_assoc t m 1).symm] at hsplit
                have hrec := List.append_cancel_left (hb.trans hsplit.symm)
                have hout := ih (t + m + 1) (by omega) hrec
                simp only [sendLoopAux, if_pos ht, hsend]
                exact hout
      · simp only [sendLoopAux]
        rw [if_neg ht]

/-- The 4-byte little-endian header decodes back to the encoded length. -/
theorem leDecode4_natToLE4 (n : Nat) (h : n < 4294967296) :
    leDecode4 (natToLE4 n) = n := by
  simp only [natToLE4, leDecode4]
  omega

/-- A fully successful send puts the header followed by the whole payload on
the wire. -/
theorem wireBytes_of_success (sock : MockSocket) (B : List Nat)
    (hpos : 0 < B.length) (hs : sendJPEGToClient sock B = B.length) :
    wireBytes sock B = natToLE4 B.length ++ B := by
  by_cases h32 : B.length < 4294967296
  · by_cases hOk : sock.headerOk = true
    · have hloop : sendLoopAux sock B.length B.length 0 = B.length := by
        simpa [sendJPEGToClient, h32, hOk] using hs
      have hbytes := sendLoopBytes_of_success sock B B.length 0 (by omega) hloop
      rw [List.drop_zero] at hbytes
      simp [wireBytes, h32, hOk, hbytes]
    · exfalso
      have hOk2 : sock.headerOk = false := by
        cases hh : sock.headerOk
        · rfl
        · exact absurd hh hOk
      simp [sendJPEGToClient, h32, hOk2] at hs
      omega
  · exfalso
    simp [sendJPEGToClient, h32] at hs
    omega

/-- Conversely, if the full framed message reached the wire then the send
reported full success. -/
theorem success_of_wireBytes (sock : MockSocket) (B : List Nat)
    (hw : wireBytes sock B = natToLE4 B.length ++ B) :
    sendJPEGToClient sock B = B.length := by
  by_cases h32 : B.length < 4294967296
  · by_cases hOk : sock.headerOk = true
    · simp only [wireBytes, if_pos h32, hOk, if_true] at hw
      have hb := List.append_cancel_left hw
      have hsucc := success_of_sendLoopBytes sock B B.length 0 (by omega)
        (by rw [List.drop_zero]; exact hb)
      simp [sendJPEGToClient, h32, hOk, hsucc]
    · exfalso
      have hOk2 : sock.headerOk = false := by
        cases hh : sock.headerOk
        · rfl
        · exact absurd hh hOk
      simp only [wireBytes, if_pos h32, hOk2, Bool.false_eq_true, if_false] at hw
      have hlen := congrArg List.length hw
      simp [natToLE4] at hlen
  · exfalso
    simp only [wireBytes, if_neg h32] at hw
    have hlen := congrArg List.length hw
    simp [natToLE4] at hlen

/-- A receiver that reads the 4-byte little-endian header and then that many
bytes recovers exactly the encoded payload. -/
theorem decodeFrame_encoded (B : List Nat) (h : B.length < 4294967296) :
    decodeFrame (natToLE4 B.length ++ B) = some (B, []) := by
  have h4 : (natToLE4 B.length).length = 4 := rfl
  have htake : (natToLE4 B.length ++ B).take 4 = natToLE4 B.length := List.take_left' h4
  have hdrop : (natToLE4 B.length ++ B).drop 4 = B := List.drop_left' h4
  have hlen : ¬ (natToLE4 B.length ++ B).length < 4 := by
    simp [List.length_append, natToLE4]
  simp only [decodeFrame, if_neg hlen, htake, hdrop, leDecode4_natToLE4 B.length h]
  rw [if_neg (by omega : ¬ B.length < B.length)]
  rw [List.take_length, List.drop_length]

/-- C1: for a payload the send routine delivers in full, the framed message
written to the client is exactly the 4-byte little-endian encoding of the
payload length followed immediately by the payload bytes, the header decodes
to the payload length, and a receiver that reads the 4-byte header and then
that many bytes recovers exactly the payload. -/
theorem framedMessageRoundTrip (sock : MockSocket) (B : List Nat)
    (h32 : B.length < 4294967296) (hOk : sock.headerOk = true)
    (hs : sendJPEGToClient sock B = B.length) :
    wireBytes sock B = natToLE4 B.length ++ B ∧
    leDecode4 (natToLE4 B.length) = B.length ∧
    decodeFrame (wireBytes sock B) = some (B, []) := by
  have hloop : sendLoopAux sock B.length B.length 0 = B.length := by
    simpa [sendJPEGToClient, h32, hOk] using hs
  have hbytes := sendLoopBytes_of_success sock B B.length 0 (by omega) hloop
  rw [List.drop_zero] at hbytes
  have hwire : wireBytes sock B = natToLE4 B.length ++ B := by
    simp [wireBytes, h32, hOk, hbytes]
  refine ⟨hwire, leDecode4_natToLE4 B.length h32, ?_⟩
  rw [hwire]
  exact decodeFrame_encoded B h32

/-- Witness for C1 at the concrete payload [7, 8, 9]. -/
theorem framedMessageRoundTrip_witness :
    ([7, 8, 9] : List Nat).length < 4294967296 ∧
    c1Sock.headerOk = true ∧
    sendJPEGToClient c1Sock [7, 8, 9] = ([7, 8, 9] : List Nat).length ∧
    (wireBytes c1Sock [7, 8, 9] = natToLE4 ([7, 8, 9] : List Nat).length ++ [7, 8, 9] ∧
      leDecode4 (natToLE4 ([7, 8, 9] : List Nat).length) = ([7, 8, 9] : List Nat).length ∧
      decodeFrame (wireBytes c1Sock [7, 8, 9]) = some ([7, 8, 9], [])) :=
  ⟨by decide, by decide, by decide,
    framedMessageRoundTrip c1Sock [7, 8, 9] (by decide) (by decide) (by decide)⟩

/-- C8 amended: for every nonempty payload the per-client send is a total
function of the socket behaviour (no exception escapes), never reports more
than the payload length, reports exactly the payload length precisely when the
header and the whole payload reached the wire, and reports strictly fewer
bytes whenever the header write fails.  The restriction to nonempty payloads
is forced: for the empty payload a failed send also returns 0 = len(payload). -/
theorem sendReturnValueContract (sock : MockSocket) (B : List Nat)
    (hpos : 0 < B.length) :
    sendJPEGToClient sock B ≤ B.length ∧
    (sendJPEGToClient sock B = B.length ↔
      wireBytes sock B = natToLE4 B.length ++ B) ∧
    (sock.headerOk = false → sendJPEGToClient sock B < B.length) := by
  refine ⟨sendJPEGToClient_le sock B,
    ⟨fun hs => wireBytes_of_success sock B hpos hs,
     fun hw => success_of_wireBytes sock B hw⟩, fun hOk => ?_⟩
  have hz : sendJPEGToClient sock B = 0 := by
    simp [sendJPEGToClient, hOk]
  omega

/-- Witness for the amended C8 at the concrete payload [5]. -/
theorem sendReturnValueContract_witness :
    0 < ([5] : List Nat).length ∧
    (sendJPEGToClient ⟨true, fun _ => SendOutcome.sent 1⟩ [5] ≤ ([5] : List Nat).length ∧
      (sendJPEGToClient ⟨true, fun _ => SendOutcome.sent 1⟩ [5] = ([5] : List Nat).length ↔
        wireBytes ⟨true, fun _ => SendOutcome.sent 1⟩ [5] =
          natToLE4 ([5] : List Nat).length ++ [5]) ∧
      ((⟨true, fun _ => SendOutcome.sent 1⟩ : MockSocket).headerOk = false →
        sendJPEGToClient ⟨true, fun _ => SendOutcome.sent 1⟩ [5] < ([5] : List Nat).length)) :=
  ⟨by decide, sendReturnValueContract ⟨true, fun _ => SendOutcome.sent 1⟩ [5] (by decide)⟩

/-- C8 counterexample: for the empty payload and a socket whose header write
raises, the send returns 0, which equals len(payload) although neither the
header nor any payload reached the wire, and which is not strictly less than
len(payload) although an I/O error occurred — so for the empty payload the
stated contract fails. -/
theorem sendEmptyPayloadContractFails :
    (⟨false, fun _ => SendOutcome.err⟩ : MockSocket).headerOk = false ∧
    sendJPEGToClient ⟨false, fun _ => SendOutcome.err⟩ [] = ([] : List Nat).length ∧
    ¬ sendJPEGToClient ⟨false, fun _ => SendOutcome.err⟩ [] < ([] : List Nat).length ∧
    wireBytes ⟨false, fun _ => SendOutcome.err⟩ [] = [] := by
  decide

/-- The two-phase removal of `sendJPEGToAllClients` (mark, then remove every
marked client from the set) leaves exactly the clients whose send returned the
full frame length. -/
theorem registryAfterBroadcast_eq (env : SocketEnv) (clients : List ClientEntry)
    (jpg : List Nat) :
    registryAfterBroadcast env clients jpg =
      clients.filter (fun c => !decide (clientSendResult env c jpg < jpg.length)) := by
  unfold registryAfterBroadcast
  apply List.filter_congr
  intro c hc
  by_cases hp : clientSendResult env c jpg < jpg.length
  · simp [removalSet, List.mem_filter, hc, hp]
  · simp [removalSet, List.mem_filter, hp]

/-- C2: the broadcast marks exactly the clients whose per-client send returned
fewer bytes than the frame length and removes exactly those from the registry;
every client whose send succeeded stays and has received the complete framed
frame on its own socket, independently of the other clients; and both the
removal set and the resulting registry are stable, up to permutation, under
any reordering (iteration order) of the registry. -/
theorem broadcastIsolation (env : SocketEnv) (clients : List ClientEntry)
    (jpg : List Nat) (hpos : 0 < jpg.length) :
    (∀ c, c ∈ removalSet env clients jpg ↔
        c ∈ clients ∧ clientSendResult env c jpg < jpg.length) ∧
    (∀ c, c ∈ registryAfterBroadcast env clients jpg ↔
        c ∈ clients ∧ clientSendResult env c jpg = jpg.length) ∧
    (∀ c ∈ registryAfterBroadcast env clients jpg,
        wireBytes (env c.1) jpg = natToLE4 jpg.length ++ jpg) ∧
    (∀ clients2, List.Perm clients clients2 →
        List.Perm (removalSet env clients jpg) (removalSet env clients2 jpg) ∧
        List.Perm (registryAfterBroadcast env clients jpg)
          (registryAfterBroadcast env clients2 jpg)) := by
  have hmem : ∀ c, c ∈ registryAfterBroadcast env clients jpg ↔
      c ∈ clients ∧ clientSendResult env c jpg = jpg.length := by
    intro c
    rw [registryAfterBroadcast_eq]
    rw [List.mem_filter]
    have hle := sendJPEGToClient_le (env c.1) jpg
    constructor
    · rintro ⟨hc, hb⟩
      refine ⟨hc, ?_⟩
      simp only [Bool.not_eq_true', decide_eq_false_iff_not, not_lt] at hb
      unfold clientSendResult at hb ⊢
      omega
    · rintro ⟨hc, he⟩
      refine ⟨hc, ?_⟩
      simp only [Bool.not_eq_true', decide_eq_false_iff_not, not_lt]
      omega
  refine ⟨?_, hmem, ?_, ?_⟩
  · intro c
    unfold removalSet
    rw [List.mem_filter]
    simp
  · intro c hc
    have he := ((hmem c).mp hc).2
    unfold clientSendResult at he
    exact wireBytes_of_success (env c.1) jpg hpos he
  · intro clients2 hperm
    constructor
    · unfold removalSet
      exact hperm.filter _
    · rw [registryAfterBroadcast_eq, registryAfterBroadcast_eq]
      exact hperm.filter _

/-- Witness for C2 at a concrete registry, environment and frame. -/
theorem broadcastIsolation_witness :
    0 < ([9] : List Nat).length ∧
    ((∀ c, c ∈ removalSet c2Env c2Clients [9] ↔
        c ∈ c2Clients ∧ clientSendResult c2Env c [9] < ([9] : List Nat).length) ∧
     (∀ c, c ∈ registryAfterBroadcast c2Env c2Clients [9] ↔
        c ∈ c2Clients ∧ clientSendResult c2Env c [9] = ([9] : List Nat).length) ∧
     (∀ c ∈ registryAfterBroadcast c2Env c2Clients [9],
        wireBytes (c2Env c.1) [9] = natToLE4 ([9] : List Nat).length ++ [9]) ∧
     (∀ clients2, List.Perm c2Clients clients2 →
        List.Perm (removalSet c2Env c2Clients [9]) (removalSet c2Env clients2 [9]) ∧
        List.Perm (registryAfterBroadcast c2Env c2Clients [9])
          (registryAfterBroadcast c2Env clients2 [9]))) :=
  ⟨by decide, broadcastIsolation c2Env c2Clients [9] (by decide)⟩

/-- The eviction phase of `sendJPEGToAllClients` contains no socket closure:
the trace of its actions closes no handle. -/
theorem closedHandles_evictPhase (l : List ClientEntry) :
    closedHandles (evictPhaseActions l) = [] := by
  induction l with
  | nil => rfl
  | cons c rest ih =>
      show closedHandles (evictPhaseActions rest) = []
      exact ih

/-- Every client of the removal set gets a registry removal and a disconnect
log entry in the eviction trace. -/
theorem evictPhaseActions_mem (l : List ClientEntry) (c : ClientEntry)
    (hc : c ∈ l) :
    EvictAction.removeEntry c ∈ evictPhaseActions l ∧
    EvictAction.logDisconnect c.2 ∈ evictPhaseActions l := by
  induction l with
  | nil => cases hc
  | cons d rest ih =>
      rcases List.mem_cons.mp hc with h | h
      · subst h
        constructor
        · exact List.mem_cons_self _ _
        · exact List.mem_cons_of_mem _ (List.mem_cons_self _ _)
      · exact ⟨List.mem_cons_of_mem _ (List.mem_cons_of_mem _ (ih h).1),
          List.mem_cons_of_mem _ (List.mem_cons_of_mem _ (ih h).2)⟩

/-- C5 counterexample: in a concrete broadcast a client is marked for eviction
and removed from the registry, yet its socket handle is not closed — the
eviction phase closes no socket at all. -/
theorem evictedSocketNotClosed :
    ((0, (7, 7)) : ClientEntry) ∈
        removalSet (fun _ => ⟨false, fun _ => SendOutcome.err⟩) [(0, (7, 7))] [1] ∧
    ((0, (7, 7)) : ClientEntry) ∉
        registryAfterBroadcast (fun _ => ⟨false, fun _ => SendOutcome.err⟩) [(0, (7, 7))] [1] ∧
    (0 : Nat) ∉ closedHandles (evictPhaseActions
        (removalSet (fun _ => ⟨false, fun _ => SendOutcome.err⟩) [(0, (7, 7))] [1])) := by
  decide

/-- C5 amended: after the broadcast iteration every client marked for eviction
is removed from the registry and a disconnect is logged for it, but the
broadcast routine closes no socket. -/
theorem evictionRemovesButNeverCloses (env : SocketEnv)
    (clients : List ClientEntry) (jpg : List Nat) :
    (∀ c ∈ removalSet env clients jpg,
        c ∉ registryAfterBroadcast env clients jpg ∧
        EvictAction.removeEntry c ∈ evictPhaseActions (removalSet env clients jpg) ∧
        EvictAction.logDisconnect c.2 ∈ evictPhaseActions (removalSet env clients jpg)) ∧
    closedHandles (evictPhaseActions (removalSet env clients jpg)) = [] := by
  refine ⟨?_, closedHandles_evictPhase _⟩
  intro c hc
  refine ⟨?_, (evictPhaseActions_mem _ c hc).1, (evictPhaseActions_mem _ c hc).2⟩
  intro hmem
  have hb := (List.mem_filter.mp hmem).2
  simp only [decide_eq_true_eq] at hb
  exact hb hc

/-- Witness for the amended C5 at a concrete registry, environment and
frame. -/
theorem evictionRemovesButNeverCloses_witness :
    (∀ c ∈ removalSet (fun _ => ⟨false, fun _ => SendOutcome.err⟩) [(3, (4, 5))] [2],
        c ∉ registryAfterBroadcast (fun _ => ⟨false, fun _ => SendOutcome.err⟩)
            [(3, (4, 5))] [2] ∧
        EvictAction.removeEntry c ∈ evictPhaseActions
          (removalSet (fun _ => ⟨false, fun _ => SendOutcome.err⟩) [(3, (4, 5))] [2]) ∧
        EvictAction.logDisconnect c.2 ∈ evictPhaseActions
          (removalSet (fun _ => ⟨false, fun _ => SendOutcome.err⟩) [(3, (4, 5))] [2])) ∧
    closedHandles (evictPhaseActions
      (removalSet (fun _ => ⟨false, fun _ => SendOutcome.err⟩) [(3, (4, 5))] [2])) = [] :=
  evictionRemovesButNeverCloses (fun _ => ⟨false, fun _ => SendOutcome.err⟩) [(3, (4, 5))] [2]

/-- C3 evaluation at the failing input: the first iteration of
`RunStreamingLoop` raises (an unhandled exception, and in the variant a
`KeyboardInterrupt`); the handler assigns the function-local `loopForever`,
but the attribute `self.loopForever` read by the while condition stays true,
so the loop keeps running and attempts two further frames in the next two
iterations — contradicting the claim that no further iteration executes. -/
theorem runStreamingLoopContinuesAfterException :
    (runLoopN (fun k => if k = 0 then IterOutcome.exn else IterOutcome.ok) 1).selfLoopForever
        = true ∧
    (runLoopN (fun k => if k = 0 then IterOutcome.exn else IterOutcome.ok) 1).localLoopForever
        = false ∧
    (runLoopN (fun k => if k = 0 then IterOutcome.exn else IterOutcome.ok) 3).framesAttempted
        = 3 ∧
    (runLoopN (fun k => if k = 0 then IterOutcome.interrupted else IterOutcome.ok) 3).framesAttempted
        = 3 ∧
    (runLoopN (fun k => if k = 0 then IterOutcome.interrupted else IterOutcome.ok) 3).selfLoopForever
        = true := by
  decide

/-- C4: constructing the server on an empty pre-loaded frame array always
fails with an exception before the streaming loop can start, for every
configuration, so a server with an empty frame source is never successfully
constructed. -/
theorem emptyFrameArrayConstructionFails (fps quality maxClients : Nat)
    (preencodeFrames : Bool) :
    ∃ e, initServer (some []) fps quality preencodeFrames maxClients =
      Except.error e := by
  cases preencodeFrames
  · exact ⟨InitFailure.unboundNameMaxFPSTest, rfl⟩
  · exact ⟨InitFailure.formatTypeMismatch, rfl⟩

/-- C10: for every argument tuple the constructor raises before returning —
on the pre-encode path with a provided frame array it raises the `TypeError`
of the summary log format, and with pre-encoding disabled it reaches and
raises the `NameError` on the unbound name `runMAXFPSTest` — so no instance
of the class is ever successfully constructed. -/
theorem constructionAlwaysRaises (frames : Option (List (List Nat)))
    (fps quality maxClients : Nat) (preencodeFrames : Bool) :
    (∃ e, initServer frames fps quality preencodeFrames maxClients = Except.error e) ∧
    (∀ fs, frames = some fs → preencodeFrames = true →
        initServer frames fps quality preencodeFrames maxClients =
          Except.error InitFailure.formatTypeMismatch) ∧
    (preencodeFrames = false →
        initServer frames fps quality preencodeFrames maxClients =
          Except.error InitFailure.unboundNameMaxFPSTest) := by
  cases frames <;> cases preencodeFrames <;>
    refine ⟨⟨_, rfl⟩, ?_, ?_⟩ <;> intros <;> simp_all [initServer]

/-- Witness for C4 at a concrete configuration. -/
theorem emptyFrameArrayConstructionFails_witness :
    ∃ e, initServer (some []) 30 90 true 5 = Except.error e :=
  emptyFrameArrayConstructionFails 30 90 5 true

/-- Witness for C10 at a concrete argument tuple. -/
theorem constructionAlwaysRaises_witness :
    (∃ e, initServer (some [[1]]) 30 90 true 5 = Except.error e) ∧
    (∀ fs, some [[1]] = some fs → true = true →
        initServer (some [[1]]) 30 90 true 5 =
          Except.error InitFailure.formatTypeMismatch) ∧
    (true = false →
        initServer (some [[1]]) 30 90 true 5 =
          Except.error InitFailure.unboundNameMaxFPSTest) :=
  constructionAlwaysRaises (some [[1]]) 30 90 5 true

/-- The circular frame index after k sends equals k modulo the frame count. -/
theorem idxAfter_eq_mod (n : Nat) : ∀ k, idxAfter n k = k % n := by
  intro k
  induction k with
  | zero => simp [idxAfter]
  | succ k ih =>
      simp only [idxAfter, ih]
      conv_rhs => rw [Nat.add_mod]
      rw [Nat.add_mod (k % n) 1 n, Nat.mod_mod_of_dvd k (dvd_refl n)]

/-- C6: with a pre-encoded frame array of n > 0 frames, the current index
advances by one modulo n after each send, the k-th sent payload is the entry
at index k mod n, and the sent sequence is periodic with period n. -/
theorem preEncodedSendSequencePeriodic (enc : List (List Nat))
    (h : 0 < enc.length) :
    (∀ k, idxAfter enc.length (k + 1) = (idxAfter enc.length k + 1) % enc.length) ∧
    (∀ k, sentPayload enc k = enc[k % enc.length]?) ∧
    (∀ k, sentPayload enc (k + enc.length) = sentPayload enc k) := by
  refine ⟨fun k => rfl, fun k => ?_, fun k => ?_⟩
  · rw [sentPayload, idxAfter_eq_mod]
  · rw [sentPayload, sentPayload, idxAfter_eq_mod, idxAfter_eq_mod, Nat.add_mod_right]

/-- Witness for C6 on a three-frame array: in particular sends 4, 5, 6 repeat
sends 1, 2, 3 byte for byte. -/
theorem preEncodedSendSequencePeriodic_witness :
    0 < ([[1], [2], [3]] : List (List Nat)).length ∧
    ((∀ k, idxAfter ([[1], [2], [3]] : List (List Nat)).length (k + 1) =
        (idxAfter ([[1], [2], [3]] : List (List Nat)).length k + 1) %
          ([[1], [2], [3]] : List (List Nat)).length) ∧
     (∀ k, sentPayload [[1], [2], [3]] k =
        ([[1], [2], [3]] : List (List Nat))[k % ([[1], [2], [3]] : List (List Nat)).length]?) ∧
     (∀ k, sentPayload [[1], [2], [3]] (k + ([[1], [2], [3]] : List (List Nat)).length) =
        sentPayload [[1], [2], [3]] k)) :=
  ⟨by decide, preEncodedSendSequencePeriodic [[1], [2], [3]] (by decide)⟩

/-- C7: over exact rational arithmetic, each loop iteration sleeps exactly
max(0, 1/fps - elapsed - 0.005), logs the overrun message whenever the
elapsed time exceeds the per-frame budget 1/fps - 0.005, and attempts frame
delivery unconditionally, so no frame is dropped or skipped due to
lateness. -/
theorem pacingContract (fps elapsed : Rat) (hf : 0 < fps) :
    (loopIteration fps elapsed).sleepTime = max 0 (1 / fps - elapsed - 5 / 1000) ∧
    (1 / fps - 5 / 1000 < elapsed → (loopIteration fps elapsed).overrunLogged = true) ∧
    (loopIteration fps elapsed).deliveryAttempted = true := by
  unfold loopIteration
  by_cases hrem : (1 / fps - 5 / 1000) - elapsed > 0
  · rw [if_pos hrem]
    refine ⟨?_, fun hlt => absurd hrem (by linarith), rfl⟩
    show (1 / fps - 5 / 1000) - elapsed = max 0 (1 / fps - elapsed - 5 / 1000)
    rw [max_eq_right (by linarith : (0 : Rat) ≤ 1 / fps - elapsed - 5 / 1000)]
    ring
  · rw [if_neg hrem]
    refine ⟨?_, fun _ => rfl, rfl⟩
    have hle : (1 / fps - 5 / 1000) - elapsed ≤ 0 := le_of_not_lt hrem
    show (0 : Rat) = max 0 (1 / fps - elapsed - 5 / 1000)
    rw [max_eq_left (by linarith : 1 / fps - elapsed - 5 / 1000 ≤ (0 : Rat))]

/-- Witness for C7 at fps = 10 and zero elapsed time. -/
theorem pacingContract_witness :
    (0 : Rat) < 10 ∧
    ((loopIteration 10 0).sleepTime = max 0 (1 / 10 - 0 - 5 / 1000) ∧
     ((1 / 10 - 5 / 1000 : Rat) < 0 → (loopIteration 10 0).overrunLogged = true) ∧
     (loopIteration 10 0).deliveryAttempted = true) :=
  ⟨by norm_num, pacingContract 10 0 (by norm_num)⟩

/-- C9: in every registry state reachable by interleaving acceptor add steps
(each adding a freshly accepted socket) and broadcaster remove steps, no two
registry entries refer to the same socket handle. -/
theorem registryHandlesNodup (reg : List ClientEntry)
    (h : ReachableRegistry reg) : (reg.map Prod.fst).Nodup := by
  induction h with
  | empty => simp
  | accept c reg hreach hfresh ih =>
      rw [List.map_cons, List.nodup_cons]
      refine ⟨?_, ih⟩
      intro hmem
      rcases List.mem_map.mp hmem with ⟨d, hd, hde⟩
      exact hfresh d hd hde
  | evict c reg hreach ih =>
      exact List.Nodup.sublist (List.Sublist.map Prod.fst (List.erase_sublist c reg)) ih

/-- Witness for C9 on a concrete two-step reachable registry. -/
theorem registryHandlesNodup_witness :
    ReachableRegistry [((1 : Nat), ((3 : Nat), (4 : Nat))), ((0 : Nat), ((1 : Nat), (2 : Nat)))] ∧
    (([((1 : Nat), ((3 : Nat), (4 : Nat))), ((0 : Nat), ((1 : Nat), (2 : Nat)))] :
        List ClientEntry).map Prod.fst).Nodup := by
  have h1 : ReachableRegistry [((0 : Nat), ((1 : Nat), (2 : Nat)))] :=
    ReachableRegistry.accept _ _ ReachableRegistry.empty (by simp)
  have h2 : ReachableRegistry
      [((1 : Nat), ((3 : Nat), (4 : Nat))), ((0 : Nat), ((1 : Nat), (2 : Nat)))] :=
    ReachableRegistry.accept _ _ h1 (by decide)
  exact ⟨h2, registryHandlesNodup _ h2⟩
